import Mathlib

/-!
Shallow embedding of the static file server in src/lib.rs.

Paths are modelled at the level of Rust std::path components on Unix: a
component is the root directory, the current-directory marker, the
parent-directory marker, or a normal segment. Rust PathBuf equality
compares exactly this component sequence, so a path is a list of
components. `parsePath` mirrors the component parser of std::path
(duplicate separators collapse, inner single-dot segments vanish, a
leading single dot survives on a relative path). `stripPref`,
`extension` and `join` mirror Path::strip_prefix, Path::extension and
Path::join at that component level; the str argument of strip_prefix is
parsed into components at the call boundary, exactly as Rust converts
the str into a Path. Rust panics (unwrap, expect, assert_eq) are
modelled as `Option.none`; the filesystem seen by the connection
handler is a function from resolved paths to open results.
-/

set_option autoImplicit false

/-- One component of a Unix path, as produced by Rust Path::components. -/
inductive Component
  | rootDir
  | curDir
  | parentDir
  | normal (s : String)
deriving DecidableEq, Repr

/-- A path, identified with its component sequence (Rust PathBuf equality). -/
abbrev RPath := List Component

/-- Splits a character list at every occurrence of the separator, keeping
empty pieces. This is the semantics of Rust str::split on a single char,
and of the chunking the std path parser performs on the separator. -/
def splitCh (sep : Char) : List Char → List (List Char)
  | [] => [[]]
  | c :: cs =>
    match splitCh sep cs with
    | [] => [[]]
    | h :: t => if c = sep then [] :: h :: t else (c :: h) :: t

/-- Drops leading whitespace characters. -/
def dropWs : List Char → List Char
  | [] => []
  | c :: cs => if c.isWhitespace then dropWs cs else c :: cs

/-- Mirrors Rust str::trim: whitespace removed from both ends. -/
def trimChars (cs : List Char) : List Char :=
  dropWs (dropWs cs.reverse).reverse

/-- A non-empty, non-dot chunk becomes a parent-dir or a normal component. -/
def parseComp (cs : List Char) : Component :=
  if cs = ['.', '.'] then Component.parentDir else Component.normal ⟨cs⟩

/-- Mirrors the component parser of Rust std::path on Unix: an absolute
path contributes a root-dir component; a relative path whose first chunk
is a single dot contributes a cur-dir component; every remaining
non-empty chunk that is not a single dot becomes a component. -/
def parsePath (s : String) : RPath :=
  let body := ((splitCh '/' s.data).filter (fun c => c != [] && c != ['.'])).map parseComp
  match s.data with
  | '/' :: _ => Component.rootDir :: body
  | ['.'] => Component.curDir :: body
  | '.' :: '/' :: _ => Component.curDir :: body
  | _ => body

/-- Mirrors Path::strip_prefix: the base components must be an exact
leading run of the path components; the remainder is returned. -/
def stripPref : RPath → RPath → Option RPath
  | p, [] => some p
  | [], _ :: _ => none
  | c :: p, d :: ds => if c = d then stripPref p ds else none

/-- Mirrors Path::file_name: the last component when it is a normal one. -/
def fileNameOf (p : RPath) : Option String :=
  match p.getLast? with
  | some (Component.normal s) => some s
  | _ => none

/-- Mirrors the extension rule of Rust std::path on a file name: the text
after the last dot, unless there is no dot or the only dot is leading. -/
def extOf (s : String) : Option String :=
  match splitCh '.' s.data with
  | [] => none
  | [_] => none
  | [[], _] => none
  | ps => ps.getLast?.map (fun l => (⟨l⟩ : String))

/-- Mirrors Path::extension: the extension of the file name, if any. -/
def extension (p : RPath) : Option String :=
  match fileNameOf p with
  | some s => extOf s
  | none => none

/-- Mirrors Path::is_absolute on Unix: the path has a root component. -/
def isAbs (p : RPath) : Bool :=
  match p with
  | Component.rootDir :: _ => true
  | _ => false

/-- A leading cur-dir marker disappears when the path is appended after a
separator, as in the string concatenation performed by PathBuf::push. -/
def dropCur (p : RPath) : RPath :=
  match p with
  | Component.curDir :: r => r
  | r => r

/-- Mirrors Path::join (PathBuf::push): an absolute argument replaces the
base; otherwise the argument is appended after a separator, which at the
component level concatenates, dropping a leading cur-dir marker of the
argument when the base is non-empty. -/
def join (root p : RPath) : RPath :=
  if isAbs p then p
  else if root.isEmpty then p
  else root ++ dropCur p

def OK_HEADER : String := "HTTP/1.1 200 OK\r\n\r\n"

def NOT_FOUND_HEADER : String := "HTTP/1.1 404 ServerError\r\n\r\n"

def SERVER_ERR_HEADER : String := "HTTP/1.1 400 ServerError\r\n\r\n"

def PREFIX_ERR : String := "prefix not found in url"

def EXTENSION_MISMATCH_ERR : String := "path extension doesn\x27t match allowed values"

/-- Mirrors process_path in src/lib.rs: strip the configured path head
from the request path (error PREFIX_ERR on failure); when a whitelist is
configured, require the stripped remainder to have an extension that the
whitelist contains (error EXTENSION_MISMATCH_ERR otherwise); finally
join the remainder onto root. -/
def process_path (path : RPath) (allowed_exts : Option (List String))
    (pfx : RPath) (root : RPath) : Except String RPath :=
  match stripPref path pfx with
  | none => Except.error PREFIX_ERR
  | some rest =>
    match allowed_exts with
    | some exts =>
      match extension rest with
      | none => Except.error EXTENSION_MISMATCH_ERR
      | some ext =>
        if exts.contains ext then Except.ok (join root rest)
        else Except.error EXTENSION_MISMATCH_ERR
    | none => Except.ok (join root rest)

/-- Mirrors the Server struct: the configured whitelist, path head (the
field named prefix in the Rust source; that word is a Lean keyword) and
root directory. -/
structure Server where
  allowed_exts : Option (List String)
  pfx : RPath
  root : RPath
deriving Repr

/-- Mirrors ServerBuilder (derive Default gives all fields empty). -/
structure ServerBuilder where
  allowed_exts : Option (List String)
  pfx : Option RPath
  root : Option RPath
deriving Repr

/-- Mirrors Server::builder, returning the default builder. -/
def Server.builder : ServerBuilder := ⟨none, none, none⟩

/-- Mirrors ServerBuilder::allow_ext. -/
def ServerBuilder.allow_ext (b : ServerBuilder) (exts : List String) : ServerBuilder :=
  ⟨some exts, b.pfx, b.root⟩

/-- Mirrors the builder setter for the path head (named prefix in Rust). -/
def ServerBuilder.setPfx (b : ServerBuilder) (p : RPath) : ServerBuilder :=
  ⟨b.allowed_exts, some p, b.root⟩

/-- Mirrors the builder setter for root. -/
def ServerBuilder.setRoot (b : ServerBuilder) (r : RPath) : ServerBuilder :=
  ⟨b.allowed_exts, b.pfx, some r⟩

/-- Mirrors ServerBuilder::build: expect panics (modelled none) when the
path head or root was never set. -/
def ServerBuilder.build (b : ServerBuilder) : Option Server :=
  match b.pfx, b.root with
  | some p, some r => some ⟨b.allowed_exts, p, r⟩
  | _, _ => none

/-- Outcome of File::open on a resolved path, as the handler inspects it. -/
inductive OpenResult
  | ok (contents : String)
  | notFound
  | otherErr
deriving DecidableEq, Repr

/-- Mirrors parse_request: split the request line on spaces; the first
token is the method; the second token, trimmed, is parsed as the path.
The unwrap on a missing second token panics, modelled as none. -/
def parse_request (req : String) : Option (String × RPath) :=
  match splitCh ' ' req.data with
  | m :: p :: _ => some (⟨m⟩, parsePath ⟨trimChars p⟩)
  | _ => none

/-- Mirrors Server::handle_client on one request line: a parse panic, a
failed assert_eq on the method, or an unwrap on a resolver error all
abort before any byte is written (none); otherwise the open result of
the resolved path picks the header, and a successful open streams the
file contents after the 200 header. -/
def Server.handle_client (s : Server) (fs : RPath → OpenResult) (req : String) : Option String :=
  match parse_request req with
  | none => none
  | some (m, path) =>
    if m = "GET" then
      match process_path path s.allowed_exts s.pfx s.root with
      | Except.ok resolved =>
        match fs resolved with
        | OpenResult.ok contents => some (OK_HEADER ++ contents)
        | OpenResult.notFound => some NOT_FOUND_HEADER
        | OpenResult.otherErr => some SERVER_ERR_HEADER
      | Except.error _ => none
    else none

/-- One step of lexical dot-dot resolution, used only to state what
filesystem location a resolved path denotes. -/
def normStep (acc : RPath) (c : Component) : RPath :=
  match c with
  | Component.parentDir =>
    match acc.getLast? with
    | some (Component.normal _) => acc.dropLast
    | some Component.rootDir => acc
    | some Component.parentDir => acc ++ [Component.parentDir]
    | some Component.curDir => acc ++ [Component.parentDir]
    | none => [Component.parentDir]
  | Component.curDir => acc
  | c => acc ++ [c]

/-- Lexical normalization of dot-dot segments, used only to state which
location a path with dot-dot segments denotes. -/
def normalizePath (p : RPath) : RPath := p.foldl normStep []


/-- Stripping a path head off the very path built by appending a remainder
to it recovers that remainder. -/
theorem stripPref_append (l r : RPath) : stripPref (l ++ r) l = some r := by
  induction l with
  | nil => simp [stripPref]
  | cons c cs ih => simp [stripPref, ih]

/-- Characterization of a successful strip: the path is exactly the base
followed by the returned remainder. -/
theorem stripPref_some_iff (l : RPath) : ∀ p r : RPath, stripPref p l = some r ↔ p = l ++ r := by
  induction l with
  | nil =>
    intro p r
    simp [stripPref]
  | cons d ds ih =>
    intro p r
    cases p with
    | nil => simp [stripPref]
    | cons c cs =>
      by_cases h : c = d
      · subst h
        simp [stripPref, ih]
      · simp [stripPref, h]

/-- Characterization of a failed strip: the base components are not a
leading run of the path components. -/
theorem stripPref_none_iff (p l : RPath) : stripPref p l = none ↔ ¬ l <+: p := by
  constructor
  · intro h hpre
    obtain ⟨t, ht⟩ := hpre
    have hs := (stripPref_some_iff l p t).mpr ht.symm
    rw [h] at hs
    exact Option.noConfusion hs
  · intro h
    cases hs : stripPref p l with
    | none => rfl
    | some r => exact absurd ⟨r, ((stripPref_some_iff l p r).mp hs).symm⟩ h

/-- Joining the empty remainder onto a base path gives the base path back. -/
theorem join_nil_right (root : RPath) : join root [] = root := by
  cases root with
  | nil => rfl
  | cons c cs => simp [join, isAbs, dropCur]

/-- The empty path has no extension. -/
theorem extension_nil : extension ([] : RPath) = none := rfl

/-- C1: for every requested path that starts with the configured path head
exactly at a path-segment boundary (that is, every path of the form head
followed by a remainder at the component level), and for every root, when
the extension check passes (or no whitelist is configured), process_path
returns Ok of root joined with the requested path minus the head. -/
theorem process_path_strip_join (pfx rem root : RPath) (exts : Option (List String))
    (hext : ∀ l, exts = some l → ∃ e, extension rem = some e ∧ l.contains e = true) :
    process_path (pfx ++ rem) exts pfx root = Except.ok (join root rem) := by
  cases exts with
  | none => simp [process_path, stripPref_append]
  | some l =>
    obtain ⟨e, he, hc⟩ := hext l rfl
    have hm : e ∈ l := by simpa using hc
    simp [process_path, stripPref_append, he, hm]

/-- Witness for C1, the example of the claim: path /prefix/some/url.jpg,
head /prefix, root /root resolves to /root/some/url.jpg. -/
theorem process_path_strip_join_w :
    process_path (parsePath "/prefix/some/url.jpg") (some ["jpg"])
      (parsePath "/prefix") (parsePath "/root") =
      Except.ok (parsePath "/root/some/url.jpg") := by
  have h := process_path_strip_join (parsePath "/prefix") (parsePath "some/url.jpg")
    (parsePath "/root") (some ["jpg"])
    (by
      intro l hl
      injection hl with h2
      subst h2
      exact ⟨"jpg", by decide, by decide⟩)
  have e1 : parsePath "/prefix/some/url.jpg" =
      parsePath "/prefix" ++ parsePath "some/url.jpg" := by decide
  have e2 : join (parsePath "/root") (parsePath "some/url.jpg") =
      parsePath "/root/some/url.jpg" := by decide
  rw [e1, h, e2]

/-- C2 counterexample: a requested path whose final extension is a member
of the configured whitelist, on which process_path nevertheless does not
succeed: it fails with the PREFIX_ERR error since the path does not start
with the configured path head. -/
theorem process_path_ext_claim_cex :
    extension (parsePath "/not-prefix/some/url.jpg") = some "jpg" ∧
    ["jpg"].contains "jpg" = true ∧
    process_path (parsePath "/not-prefix/some/url.jpg") (some ["jpg"])
      (parsePath "/prefix") (parsePath "/root") = Except.error PREFIX_ERR :=
  ⟨by decide, by decide, rfl⟩

/-- C2 amended: when a whitelist is configured, then on every requested
path that starts with the configured head at a segment boundary, if the
extension of the remainder after stripping the head is absent or not a
member of the whitelist process_path fails with EXTENSION_MISMATCH_ERR,
and if that extension is a member process_path succeeds. -/
theorem process_path_ext_gate (pfx rem root : RPath) (exts : List String) :
    (extension rem = none →
      process_path (pfx ++ rem) (some exts) pfx root =
        Except.error EXTENSION_MISMATCH_ERR) ∧
    (∀ e, extension rem = some e → exts.contains e = false →
      process_path (pfx ++ rem) (some exts) pfx root =
        Except.error EXTENSION_MISMATCH_ERR) ∧
    (∀ e, extension rem = some e → exts.contains e = true →
      process_path (pfx ++ rem) (some exts) pfx root =
        Except.ok (join root rem)) := by
  refine ⟨?_, ?_, ?_⟩
  · intro h
    simp [process_path, stripPref_append, h]
  · intro e he hc
    have hm : e ∉ exts := by simpa using hc
    simp [process_path, stripPref_append, he, hm]
  · intro e he hc
    have hm : e ∈ exts := by simpa using hc
    simp [process_path, stripPref_append, he, hm]

/-- Witness for the amended C2: /prefix/some/url.png against whitelist
jpg fails with the extension error. -/
theorem process_path_ext_gate_w :
    process_path (parsePath "/prefix/some/url.png") (some ["jpg"])
      (parsePath "/prefix") (parsePath "/root") =
      Except.error EXTENSION_MISMATCH_ERR := by
  have h := (process_path_ext_gate (parsePath "/prefix") (parsePath "some/url.png")
    (parsePath "/root") ["jpg"]).2.1 "png" (by decide) (by decide)
  have e1 : parsePath "/prefix/some/url.png" =
      parsePath "/prefix" ++ parsePath "some/url.png" := by decide
  rw [e1]
  exact h

/-- C3: every requested path that does not start with the configured path
head as a whole-component prefix is rejected with the PREFIX_ERR error,
whatever the whitelist and root are. -/
theorem process_path_bad_pfx (p pfx root : RPath) (exts : Option (List String))
    (h : ¬ pfx <+: p) :
    process_path p exts pfx root = Except.error PREFIX_ERR := by
  have hn : stripPref p pfx = none := (stripPref_none_iff p pfx).mpr h
  simp [process_path, hn]

/-- Witness for C3: /prefixextra/x matches /prefix only as a character
substring, not at a component boundary, and is rejected. -/
theorem process_path_bad_pfx_w :
    process_path (parsePath "/prefixextra/x") (some ["jpg"])
      (parsePath "/prefix") (parsePath "/root") = Except.error PREFIX_ERR :=
  process_path_bad_pfx (parsePath "/prefixextra/x") (parsePath "/prefix")
    (parsePath "/root") (some ["jpg"]) (by decide)

/-- C6: dot-dot segments survive resolution verbatim: this request passes
the head and extension checks, resolves to a path still holding the
dot-dot component, and that path denotes (after lexical normalization) a
location that does not lie under the configured root. -/
theorem process_path_dotdot_escape :
    process_path (parsePath "/prefix/../secret/x.jpg") (some ["jpg"])
      (parsePath "/prefix") (parsePath "/root") =
      Except.ok (parsePath "/root/../secret/x.jpg") ∧
    Component.parentDir ∈ parsePath "/root/../secret/x.jpg" ∧
    normalizePath (parsePath "/root/../secret/x.jpg") = parsePath "/secret/x.jpg" ∧
    ¬ (parsePath "/root" <+: parsePath "/secret/x.jpg") :=
  ⟨rfl, by decide, by decide, by decide⟩

/-- C7: with no whitelist configured, every requested path that starts
with the configured head resolves successfully to root joined with the
remainder, extension or not. -/
theorem process_path_no_whitelist (pfx rem root : RPath) :
    process_path (pfx ++ rem) none pfx root = Except.ok (join root rem) := by
  simp [process_path, stripPref_append]

/-- C4: once the request line parsed as a GET and the path resolved, the
handler writes exactly the bare 200 header followed by the file bytes
when the open succeeds, exactly the 404 header alone when the open fails
with not-found, and exactly the 400 header alone on any other failure. -/
theorem handle_client_open_responses (s : Server) (fs : RPath → OpenResult)
    (req : String) (path resolved : RPath) (contents : String)
    (hreq : parse_request req = some ("GET", path))
    (hres : process_path path s.allowed_exts s.pfx s.root = Except.ok resolved) :
    (fs resolved = OpenResult.ok contents →
      Server.handle_client s fs req = some ("HTTP/1.1 200 OK\r\n\r\n" ++ contents)) ∧
    (fs resolved = OpenResult.notFound →
      Server.handle_client s fs req = some "HTTP/1.1 404 ServerError\r\n\r\n") ∧
    (fs resolved = OpenResult.otherErr →
      Server.handle_client s fs req = some "HTTP/1.1 400 ServerError\r\n\r\n") := by
  refine ⟨?_, ?_, ?_⟩ <;> intro hfs <;>
    simp [Server.handle_client, hreq, hres, hfs, OK_HEADER, NOT_FOUND_HEADER,
      SERVER_ERR_HEADER]

/-- Witness for C4: a GET of an existing file under the configuration of
src/bin.rs without a whitelist yields the 200 header plus the bytes. -/
theorem handle_client_open_responses_w :
    Server.handle_client ⟨none, parsePath "/local", parsePath "/"⟩
      (fun _ => OpenResult.ok "HELLO") "GET /local/etc/hosts HTTP/1.1\r\n" =
      some ("HTTP/1.1 200 OK\r\n\r\n" ++ "HELLO") :=
  (handle_client_open_responses ⟨none, parsePath "/local", parsePath "/"⟩
    (fun _ => OpenResult.ok "HELLO") "GET /local/etc/hosts HTTP/1.1\r\n"
    (parsePath "/local/etc/hosts") (parsePath "/etc/hosts") "HELLO"
    (by decide) rfl).1 rfl

/-- C5: a request line with no second token, a method other than GET, or
a path the resolver rejects makes the handler abort before writing any
byte: the connection sees no response at all (modelled as none). -/
theorem handle_client_fatal_paths (s : Server) (fs : RPath → OpenResult) (req : String) :
    (parse_request req = none → Server.handle_client s fs req = none) ∧
    (∀ m path, parse_request req = some (m, path) → m ≠ "GET" →
      Server.handle_client s fs req = none) ∧
    (∀ path e, parse_request req = some ("GET", path) →
      process_path path s.allowed_exts s.pfx s.root = Except.error e →
      Server.handle_client s fs req = none) := by
  refine ⟨?_, ?_, ?_⟩
  · intro h
    simp [Server.handle_client, h]
  · intro m path h hm
    simp [Server.handle_client, h, hm]
  · intro path e h hp
    simp [Server.handle_client, h, hp]

/-- Witness for C5: a POST request is dropped with no response bytes. -/
theorem handle_client_fatal_paths_w :
    Server.handle_client ⟨some ["jpg"], parsePath "/prefix", parsePath "/root"⟩
      (fun _ => OpenResult.ok "X") "POST /prefix/a.jpg HTTP/1.1\r\n" = none :=
  (handle_client_fatal_paths ⟨some ["jpg"], parsePath "/prefix", parsePath "/root"⟩
    (fun _ => OpenResult.ok "X") "POST /prefix/a.jpg HTTP/1.1\r\n").2.1
    "POST" (parsePath "/prefix/a.jpg") (by decide) (by decide)

/-- C8: build fails (the expect panic, modelled none) whenever the path
head or the root is unset; when both are set it returns a Server holding
exactly the configured whitelist, head and root; and a builder on which
allow_ext was never called yields a Server with no restriction. -/
theorem build_requires_fields (b : ServerBuilder) :
    ((b.pfx = none ∨ b.root = none) → b.build = none) ∧
    (∀ p r, b.pfx = some p → b.root = some r →
      b.build = some ⟨b.allowed_exts, p, r⟩) ∧
    (∀ p r, ((Server.builder.setPfx p).setRoot r).build = some ⟨none, p, r⟩) := by
  obtain ⟨a, bp, br⟩ := b
  refine ⟨?_, ?_, ?_⟩
  · intro h
    rcases h with h | h
    · cases h
      cases br <;> rfl
    · cases h
      cases bp <;> rfl
  · intro p r hp hr
    cases hp
    cases hr
    rfl
  · intro p r
    rfl

/-- Witness for C8: the empty builder fails to build, and setting only
the two required fields yields a Server with no whitelist. -/
theorem build_requires_fields_w :
    Server.builder.build = none ∧
    ((Server.builder.setPfx (parsePath "/local")).setRoot (parsePath "/")).build =
      some ⟨none, parsePath "/local", parsePath "/"⟩ :=
  ⟨(build_requires_fields Server.builder).1 (Or.inl rfl),
   (build_requires_fields Server.builder).2.2 (parsePath "/local") (parsePath "/")⟩

/-- C9: a request path equal to the configured head strips to the empty
remainder: with no whitelist the result is Ok root itself, and with any
whitelist the empty remainder has no extension so the result is the
extension error. -/
theorem process_path_pfx_exact (pfx root : RPath) :
    process_path pfx none pfx root = Except.ok root ∧
    (∀ exts, process_path pfx (some exts) pfx root =
      Except.error EXTENSION_MISMATCH_ERR) := by
  have hs : stripPref pfx pfx = some [] := by
    have h := stripPref_append pfx []
    rwa [List.append_nil] at h
  constructor
  · simp [process_path, hs, join_nil_right]
  · intro exts
    simp [process_path, hs, extension_nil]

/-- C10: whenever the remainder left after stripping the head is itself
absolute (in particular with the empty head and an absolute request),
the join discards root entirely and process_path returns the remainder
verbatim, whatever the root. -/
theorem process_path_abs_remainder (pfx rem root : RPath) (exts : Option (List String))
    (habs : isAbs rem = true)
    (hext : ∀ l, exts = some l → ∃ e, extension rem = some e ∧ l.contains e = true) :
    process_path (pfx ++ rem) exts pfx root = Except.ok rem ∧ join root rem = rem := by
  have hj : join root rem = rem := by simp [join, habs]
  refine ⟨?_, hj⟩
  cases exts with
  | none =>
    simp [process_path, stripPref_append, hj]
  | some l =>
    obtain ⟨e, he, hc⟩ := hext l rfl
    have hm : e ∈ l := by simpa using hc
    simp [process_path, stripPref_append, he, hm, hj]

/-- Witness for C10: with the empty head, a GET path /etc/hosts resolves
to /etc/hosts itself, ignoring the configured root /root. -/
theorem process_path_abs_remainder_w :
    process_path (parsePath "/etc/hosts") none (parsePath "") (parsePath "/root") =
      Except.ok (parsePath "/etc/hosts") ∧
    join (parsePath "/root") (parsePath "/etc/hosts") = parsePath "/etc/hosts" := by
  have h := process_path_abs_remainder (parsePath "") (parsePath "/etc/hosts")
    (parsePath "/root") none (by decide) (fun l hl => nomatch hl)
  exact ⟨h.1, h.2⟩
